import Mathlib

/-!
Shallow embedding of `src/garc/client.py` (the Garc data-collection client).

Each pagination engine of the Python class `Garc` is modelled as a pure
function from a *script* of upstream responses (one list element per HTTP
fetch the engine performs) to the run's observable outcome: the list of
records yielded to the caller, the trace of fetches (the cursor value used
for each fetch, paired with the scripted response it received), the sleeps
performed, and whether a Python-level IndexError would have been raised.

Machine-level details not modelled: URLs (only the cursor parameter that
varies per fetch is kept), real time (sleeps are recorded as durations),
logging, and the account-id lookup preceding `userposts` / `usercomments`
(it does not interact with the pagination loop).
-/

namespace Garc

/-- A decoded post record: the fields `client.py` reads (`id`, `created_at`,
`content`) plus the derived plain-text `body` that `format_post` adds. -/
structure Post where
  id : String
  created_at : String
  content : String
  body : Option String
deriving DecidableEq, Repr

/-- A fallback record, used only to state lemmas about list indexing. -/
def dummyPost : Post := ⟨"", "", "", none⟩

/-- One scripted upstream response for the `max_id`-style engines
(`hashtag`, `public_search`): an HTTP 200 with a decoded list of posts,
or one of the two status codes those engines branch on. -/
inductive Resp where
  | ok (posts : List Post)
  | s429
  | s500
deriving DecidableEq, Repr

/-- One scripted upstream response for the offset-page `search` engine:
its HTTP 200 body is a JSON mapping, modelled as an association list
(`client.py` takes the first key's value as the list of posts). -/
inductive SResp where
  | ok (entries : List (String × List Post))
  | s429
  | s500
deriving DecidableEq, Repr

/-- `posts[-1]` of a non-empty page `p :: ps`. -/
def lastPost (p : Post) (ps : List Post) : Post := ps.getLastD p

/-- ASCII lower-casing of one character (the effect of Python `str.lower`
on the ASCII text the claims exercise). -/
def lowerChar (ch : Char) : Char :=
  if 'A' ≤ ch ∧ ch ≤ 'Z' then Char.ofNat (ch.toNat + 32) else ch

/-- Lower-cased character data of a string. -/
def lowerStr (s : String) : List Char := s.data.map lowerChar

/-- Does `needle` occur at the head of `hay`? -/
def startsList : List Char → List Char → Bool
  | [], _ => true
  | _ :: _, [] => false
  | a :: as, b :: bs => a = b && startsList as bs

/-- Does `needle` occur anywhere inside `hay`? -/
def hasSub (needle : List Char) : List Char → Bool
  | [] => needle.isEmpty
  | c :: rest => startsList needle (c :: rest) || hasSub needle rest

/-- Modelled from the spec: `search_gab_text` calls the external
`re.search(query.lower(), gab["content"].lower())`; the spec describes the
match as "decoded text content matches the query substring
case-insensitively", which is what `re.search` does on a literal pattern.
Modelled as case-insensitive substring containment. -/
def search_gab_text (gab : Post) (query : String) : Bool :=
  hasSub (lowerStr query) (lowerStr gab.content)

/-- Modelled from the spec: the external `html.unescape` used by
`format_post` ("Decodes any HTML-escaped entities in the content field"),
restricted to the five standard entities, which covers the spec's test
input. -/
def unescapeList : List Char → List Char
  | [] => []
  | '&' :: 'a' :: 'm' :: 'p' :: ';' :: rest => '&' :: unescapeList rest
  | '&' :: 'l' :: 't' :: ';' :: rest => '<' :: unescapeList rest
  | '&' :: 'g' :: 't' :: ';' :: rest => '>' :: unescapeList rest
  | '&' :: 'q' :: 'u' :: 'o' :: 't' :: ';' :: rest => '"' :: unescapeList rest
  | '&' :: '#' :: '3' :: '9' :: ';' :: rest => '\'' :: unescapeList rest
  | c :: rest => c :: unescapeList rest

/-- Modelled from the spec: the external
`BeautifulSoup(..., "html.parser").get_text()` used by `format_post`
("strips markup"): markup between `<` and `>` is removed, text is kept.
The flag records whether the scan is currently inside a tag. -/
def stripTagsGo : Bool → List Char → List Char
  | _, [] => []
  | false, '<' :: rest => stripTagsGo true rest
  | false, c :: rest => c :: stripTagsGo false rest
  | true, '>' :: rest => stripTagsGo false rest
  | true, _ :: rest => stripTagsGo true rest

/-- `format_post` (client.py:426): adds the plain-text `body` computed from
`content`; every other field is left untouched. -/
def format_post (post : Post) : Post :=
  Post.mk post.id post.created_at post.content
    (some (String.mk (stripTagsGo false (unescapeList post.content.data))))

/-- Python's `<` on strings, on character data: lexicographic comparison
of code points. -/
def pyLtList : List Char → List Char → Bool
  | [], [] => false
  | [], _ :: _ => true
  | _ :: _, [] => false
  | x :: xs, y :: ys =>
    if x.toNat < y.toNat then true
    else if x.toNat = y.toNat then pyLtList xs ys
    else false

/-- Python's `<` on strings (used by the date-cutoff comparisons of
`public_search` and `userposts`): lexicographic by code point. -/
def pyLt (a b : String) : Bool := pyLtList a.data b.data

/-- The staged date-cutoff check of `public_search` (client.py:216-222):
`posts[0]`, `posts[1]`, `posts[2]` and `posts[-1]` are compared against
`gabs_after` in turn; `some true` means the nested `break` is reached,
`some false` means the loop continues, `none` means an index access fell
outside the page (Python IndexError). -/
def dateCheck (posts : List Post) (ga : String) : Option Bool :=
  match posts.get? 0 with
  | none => none
  | some p0 =>
    if pyLt p0.created_at ga then
      match posts.get? 1 with
      | none => none
      | some p1 =>
        if pyLt p1.created_at ga then
          match posts.get? 2 with
          | none => none
          | some p2 =>
            if pyLt p2.created_at ga then
              match posts.getLast? with
              | none => none
              | some pl => if pyLt pl.created_at ga then some true else some false
            else some false
        else some false
    else some false

/-- Observable outcome of one engine run for the `max_id`-style engines:
the records yielded, the fetch trace (cursor used, response received),
the sleep durations performed, and whether a Python IndexError occurred. -/
structure RunResult where
  yields : List Post
  trace : List (String × Resp)
  sleeps : List Nat
  err : Bool
deriving DecidableEq, Repr

/-- Outcome of a `search` run (its cursor is an integer page index). -/
structure SearchRun where
  yields : List Post
  trace : List (Nat × SResp)
  sleeps : List Nat
deriving DecidableEq, Repr

/-- Outcome of a `userposts` / `usercomments` run (no status-code branches
in those loops: the script is just the decoded page of each fetch). -/
structure URun where
  yields : List Post
  trace : List (String × List Post)
deriving DecidableEq, Repr

/-- Outcome of a `followers` / `following` run (cursor is the integer
`before` count). -/
structure FRun where
  yields : List Post
  trace : List (Nat × List Post)
deriving DecidableEq, Repr

/-- The inner yield loop of `hashtag` (client.py:153-157): for each post,
`num_gabs` is incremented, the post is yielded, and the generator returns
when `num_gabs > gabs and gabs != -1`. Returns the yields of this page,
the updated `num_gabs`, and whether the `return` was taken. -/
def hashtagYield (gabs : Int) : Nat → List Post → List Post × Nat × Bool
  | n, [] => ([], n, false)
  | n, p :: ps =>
    let n' := n + 1
    if (n' : Int) > gabs ∧ gabs ≠ -1 then ([p], n', true)
    else
      let r := hashtagYield gabs n' ps
      (p :: r.1, r.2.1, r.2.2)

/-- The `while True` loop of `hashtag` (client.py:132-157), from state
`num_gabs = n`, `max_id = c`. A 500 breaks; a 429 sleeps 100s and
continues with the same cursor; an empty page breaks; otherwise `max_id`
is set to the page's last record id and the yield loop runs. -/
def hashtagGo (gabs : Int) : List Resp → Nat → String → RunResult
  | [], _, _ => ⟨[], [], [], false⟩
  | .s500 :: _, _, c => ⟨[], [(c, .s500)], [], false⟩
  | .s429 :: rest, n, c =>
    let r := hashtagGo gabs rest n c
    ⟨r.yields, (c, .s429) :: r.trace, 100 :: r.sleeps, r.err⟩
  | .ok [] :: _, _, c => ⟨[], [(c, .ok [])], [], false⟩
  | .ok (p :: ps) :: rest, n, c =>
    let c' := (lastPost p ps).id
    let y := hashtagYield gabs n (p :: ps)
    if y.2.2 then ⟨y.1, [(c, .ok (p :: ps))], [], false⟩
    else
      let r := hashtagGo gabs rest y.2.1 c'
      ⟨y.1 ++ r.yields, (c, .ok (p :: ps)) :: r.trace, r.sleeps, r.err⟩

/-- `hashtag` (client.py:124): `num_gabs = 0`, `max_id = ""`. -/
def hashtag (gabs : Int) (script : List Resp) : RunResult :=
  hashtagGo gabs script 0 ""

/-- The per-record loop of `public_search` (client.py:201-204): a post is
yielded (formatted) only when `search_gab_text` matches; `max_id` advances
for every post regardless. Only the yields are returned here (the final
cursor is the last post's id, which the engine computes from the page). -/
def publicYield (q : String) : List Post → List Post
  | [] => []
  | p :: ps =>
    if search_gab_text p q then format_post p :: publicYield q ps
    else publicYield q ps

/-- The `while True` loop of `public_search` (client.py:176-222), from
state `num_gabs = n`, `max_id = c`. A 500 returns; a 429 sleeps 100s and
then BREAKS (terminating the generator); an empty page breaks; otherwise
the page is yielded through the text filter, `num_gabs` grows by the page
length, the limit check runs, and then the staged date-cutoff check runs
(`err = true` marks its IndexError branch). -/
def publicGo (q : String) (gabs : Int) (ga : String) :
    List Resp → Nat → String → RunResult
  | [], _, _ => ⟨[], [], [], false⟩
  | .s500 :: _, _, c => ⟨[], [(c, .s500)], [], false⟩
  | .s429 :: _, _, c => ⟨[], [(c, .s429)], [100], false⟩
  | .ok [] :: _, _, c => ⟨[], [(c, .ok [])], [], false⟩
  | .ok (p :: ps) :: rest, n, c =>
    let ys := publicYield q (p :: ps)
    let c' := (lastPost p ps).id
    let n' := n + (p :: ps).length
    if (n' : Int) > gabs ∧ gabs ≠ -1 then ⟨ys, [(c, .ok (p :: ps))], [], false⟩
    else
      match dateCheck (p :: ps) ga with
      | none => ⟨ys, [(c, .ok (p :: ps))], [], true⟩
      | some true => ⟨ys, [(c, .ok (p :: ps))], [], false⟩
      | some false =>
        let r := publicGo q gabs ga rest n' c'
        ⟨ys ++ r.yields, (c, .ok (p :: ps)) :: r.trace, r.sleeps, r.err⟩

/-- `public_search` (client.py:159): `num_gabs = 0`, `max_id = ""`. -/
def public_search (q : String) (gabs : Int) (ga : String)
    (script : List Resp) : RunResult :=
  publicGo q gabs ga script 0 ""

/-- The `while True` loop of `userposts` (client.py:256-270), from state
`num_gabs = n`, `max_id = c`. No status-code branches; an empty page
breaks; otherwise every post is yielded formatted (with `max_id` advancing
per record, ending at the last record's id), then the date break
(`posts[-1]["created_at"] < gabs_after`) is checked BEFORE the limit
break. -/
def userpostsGo (gabs : Int) (ga : String) :
    List (List Post) → Nat → String → URun
  | [], _, _ => ⟨[], []⟩
  | [] :: _, _, c => ⟨[], [(c, [])]⟩
  | (p :: ps) :: rest, n, c =>
    let lastP := lastPost p ps
    let ys := (p :: ps).map format_post
    let n' := n + (p :: ps).length
    if pyLt lastP.created_at ga then ⟨ys, [(c, p :: ps)]⟩
    else if (n' : Int) > gabs ∧ gabs ≠ -1 then ⟨ys, [(c, p :: ps)]⟩
    else
      let r := userpostsGo gabs ga rest n' lastP.id
      ⟨ys ++ r.yields, (c, p :: ps) :: r.trace⟩

/-- `userposts` (client.py:242): `num_gabs = 0`, `max_id = ""` (the
account-id lookup that fixes the URL is outside the pagination loop). -/
def userposts (gabs : Int) (ga : String) (script : List (List Post)) : URun :=
  userpostsGo gabs ga script 0 ""

/-- The `while True` loop of `usercomments` (client.py:284-296): like
`userposts` but with no date break, and the cursor is appended to the URL
by string concatenation (same `max_id` semantics: the last record's id). -/
def usercommentsGo (gabs : Int) : List (List Post) → Nat → String → URun
  | [], _, _ => ⟨[], []⟩
  | [] :: _, _, c => ⟨[], [(c, [])]⟩
  | (p :: ps) :: rest, n, c =>
    let ys := (p :: ps).map format_post
    let n' := n + (p :: ps).length
    if (n' : Int) > gabs ∧ gabs ≠ -1 then ⟨ys, [(c, p :: ps)]⟩
    else
      let r := usercommentsGo gabs rest n' (lastPost p ps).id
      ⟨ys ++ r.yields, (c, p :: ps) :: r.trace⟩

/-- `usercomments` (client.py:272). -/
def usercomments (gabs : Int) (script : List (List Post)) : URun :=
  usercommentsGo gabs script 0 ""

/-- The `while True` loop of `followers` (client.py:334-342) and of
`following` (client.py:349-357): cursor is the running `before` count,
advanced by each page's length; stops on the first empty page. -/
def followersGo : List (List Post) → Nat → FRun
  | [], _ => ⟨[], []⟩
  | [] :: _, n => ⟨[], [(n, [])]⟩
  | (p :: ps) :: rest, n =>
    let r := followersGo rest (n + (p :: ps).length)
    ⟨(p :: ps) ++ r.yields, (n, p :: ps) :: r.trace⟩

/-- `followers` (client.py:328): `num_followers = 0`. -/
def followers (script : List (List Post)) : FRun :=
  followersGo script 0

/-- `following` (client.py:344): the loop body is identical to
`followers` (only the URL path differs). -/
def following (script : List (List Post)) : FRun :=
  followersGo script 0

/-- `pages_count` of `search` (client.py:82-87):
`100000000` when `gabs == -1`, else `int(gabs / 25) + (gabs % 25 > 0)`
(Python truncating division and non-negative remainder; Python's `/` is
float division, which agrees with exact division for every magnitude a
record count can have, so it is modelled exactly). -/
def searchPages (gabs : Int) : Nat :=
  if gabs = -1 then 100000000
  else (Int.tdiv gabs 25 + (if Int.emod gabs 25 > 0 then 1 else 0)).toNat

/-- The inner yield loop of `search` (client.py:118-122): each post is
counted and yielded, and the generator returns when `num_gabs == gabs`. -/
def searchYield (gabs : Int) : Nat → List Post → List Post × Nat × Bool
  | n, [] => ([], n, false)
  | n, p :: ps =>
    let n' := n + 1
    if (n' : Int) = gabs then ([p], n', true)
    else
      let r := searchYield gabs n' ps
      (p :: r.1, r.2.1, r.2.2)

/-- The `for page in range(pages_count)` loop of `search`
(client.py:94-122), with `fuel` the number of loop iterations left and
`page` the current page index. A 500 breaks; a 429 sleeps 100s and
`continue`s (the page index still advances); an empty response mapping or
an empty first-key post list breaks; otherwise the yield loop runs on the
first key's posts. -/
def searchGo (gabs : Int) : Nat → Nat → Nat → List SResp → SearchRun
  | 0, _, _, _ => ⟨[], [], []⟩
  | _ + 1, _, _, [] => ⟨[], [], []⟩
  | _ + 1, page, _, .s500 :: _ => ⟨[], [(page, .s500)], []⟩
  | f + 1, page, n, .s429 :: rest =>
    let r := searchGo gabs f (page + 1) n rest
    ⟨r.yields, (page, .s429) :: r.trace, 100 :: r.sleeps⟩
  | _ + 1, page, _, .ok [] :: _ => ⟨[], [(page, .ok [])], []⟩
  | _ + 1, page, _, .ok ((k, []) :: es) :: _ =>
    ⟨[], [(page, .ok ((k, []) :: es))], []⟩
  | f + 1, page, n, .ok ((k, p :: ps) :: es) :: rest =>
    let y := searchYield gabs n (p :: ps)
    if y.2.2 then ⟨y.1, [(page, .ok ((k, p :: ps) :: es))], []⟩
    else
      let r := searchGo gabs f (page + 1) y.2.1 rest
      ⟨y.1 ++ r.yields, (page, .ok ((k, p :: ps) :: es)) :: r.trace, r.sleeps⟩

/-- `search` (client.py:51): page index starts at 0, `num_gabs = 0`, and
the loop runs at most `searchPages gabs` iterations. The query string and
flags only shape the URL and are not modelled. -/
def search (gabs : Int) (script : List SResp) : SearchRun :=
  searchGo gabs (searchPages gabs) 0 0 script

/-- One attempt outcome inside `get` / `anonymous_get`: either
`requests.get` raises a connection error, or it returns a response with
the given status code. -/
inductive Att where
  | conn
  | resp (status : Nat)
deriving DecidableEq, Repr

/-- Body of `get` (client.py:359-386), threading the script of attempt
outcomes through the recursive retries; returns the status of the response
the call returns (`none` = the Python function returns `None`) and the
unconsumed script. On a connection error the code sleeps, retries via
`self.get(...)` WITHOUT using the result, and falls off the end of the
function (returning `None`). After a 404 retry whose result is `None`,
Python would raise on `r.status_code`; that branch is modelled as an
absent result and is not exercised by the claims. -/
def getGo : Nat → List Att → Option Nat × List Att
  | 0, s => (none, s)
  | _ + 1, [] => (none, [])
  | f + 1, .conn :: rest =>
    let r1 := getGo f rest
    (none, r1.2)
  | f + 1, .resp s :: rest =>
    let r1 := if s = 404 then getGo f rest else (some s, rest)
    match r1.1 with
    | none => (none, r1.2)
    | some s1 =>
      if s1 = 500 then getGo f r1.2
      else (some s1, r1.2)

/-- `get` (client.py:359): the retry wrapper for authenticated fetches. -/
def get (script : List Att) : Option Nat :=
  (getGo (script.length + 1) script).1

/-- `anonymous_get` (client.py:388): its retry/return structure is
line-for-line that of `get` (only the sleep duration on 404 and the
absence of cookies differ), so it shares the model. -/
def anonymous_get (script : List Att) : Option Nat :=
  (getGo (script.length + 1) script).1

/-- The successfully processed non-empty pages of a `max_id`-engine trace,
each paired with the cursor that fetched it. -/
def okPages (t : List (String × Resp)) : List (String × List Post) :=
  t.filterMap fun e =>
    match e.2 with
    | .ok (p :: ps) => some (e.1, p :: ps)
    | _ => none

/-- The non-empty pages of a `userposts`-style trace. -/
def uOkPages (t : List (String × List Post)) : List (String × List Post) :=
  t.filter fun e => !e.2.isEmpty

/-- Cursor-monotonicity step: the cursor that fetched page `b` is the id
of the last record of page `a`. -/
def pageStep (a b : String × List Post) : Prop :=
  b.1 = (a.2.getLastD dummyPost).id

/-- The number of records carried by one scripted response (0 for a
status-only response); used to state page-size bounds decidably. -/
def respPageLength : Resp → Nat
  | .ok ps => ps.length
  | _ => 0

end Garc

/-- `getLast?` of a non-empty list, expressed through `getLastD`. -/
theorem getLast?_cons_eq {α : Type} (a : α) (l : List α) :
    (a :: l).getLast? = some (l.getLastD a) := by
  induction l generalizing a with
  | nil => simp
  | cons b l ih => rw [List.getLast?_cons_cons, ih b, List.getLastD_cons]


/-- C9: the Normalizer `format_post` is idempotent on the plain-text
`body` field — `body` is recomputed from the untouched `content` field, so
a second application produces the same value (no double-unescaping) — and
on the concrete input with content `"Hello &amp; welcome <b>friend</b>"`
the produced body is `"Hello & welcome friend"`. -/
theorem c9_format_post_idempotent_on_body :
    (∀ p : Garc.Post,
      (Garc.format_post (Garc.format_post p)).body = (Garc.format_post p).body) ∧
    (Garc.format_post
        ⟨"1", "2020-01-01", "Hello &amp; welcome <b>friend</b>", none⟩).body
      = some "Hello & welcome friend" :=
  ⟨fun _ => rfl, by decide⟩

/-- C3: evaluating `get` / `anonymous_get` at the failing input — first
attempt raises a connection error (TransportError), the retry answers
HTTP 200. The `except` branch performs the retry but discards its result
and falls off the end of the function, so the caller receives `None`
(`none`), not the retried 200 response the claim promises. By contrast
the 404 retry path does return the retried response (third conjunct). -/
theorem c3_get_returns_none_after_transport_error :
    Garc.get [Garc.Att.conn, Garc.Att.resp 200] = none ∧
    Garc.anonymous_get [Garc.Att.conn, Garc.Att.resp 200] = none ∧
    Garc.get [Garc.Att.resp 404, Garc.Att.resp 200] = some 200 := by
  decide

/-- C10: the staged date-cutoff check of `public_search` reads positions
0, 1 and 2 unconditionally once its guards pass. On a one-record page
whose only record is older than `gabs_after` (with `gabs = -1`, so the
limit check does not break first), the access `posts[1]` falls outside the
page: the embedded run takes the IndexError branch (`err = true`) after
the single fetch. -/
theorem c10_public_search_date_check_index_error :
    (Garc.public_search "" (-1) "2000-01-01"
      [Garc.Resp.ok [⟨"9", "1999-01-01", "x", none⟩]]).err = true ∧
    (Garc.public_search "" (-1) "2000-01-01"
      [Garc.Resp.ok [⟨"9", "1999-01-01", "x", none⟩]]).trace.length = 1 := by
  decide

/-- C2 (counterexample): a `public_search` run whose first fetch answers
429 and whose script holds a further non-empty page. The claim says the
engine re-polls the same cursor and the lazy sequence is not terminated
by the 429; the code instead executes `break` (client.py:192): exactly one
fetch happens and the scripted follow-up page is never fetched nor
yielded. -/
theorem c2_429_termination_counterexample :
    (Garc.public_search "" 5 "2000-01-01"
      [Garc.Resp.s429, Garc.Resp.ok [⟨"1", "2024-01-01", "a", none⟩]]).trace
      = [("", Garc.Resp.s429)] ∧
    (Garc.public_search "" 5 "2000-01-01"
      [Garc.Resp.s429, Garc.Resp.ok [⟨"1", "2024-01-01", "a", none⟩]]).yields
      = [] := by
  decide

/-- C2 (amended): on an HTTP 429 the engines sleep 100 seconds, but what
happens next differs per engine. `hashtag` re-polls the same cursor `c`
with unchanged state and the sequence continues (first conjunct);
`public_search` terminates the lazy sequence — the 429 fetch is its last
(second conjunct); `search` continues with the NEXT page index (third
conjunct). -/
theorem c2_429_handling_amended :
    ∀ (gabs : Int) (q ga c : String) (n : Nat) (script : List Garc.Resp)
      (f page m : Nat) (srest : List Garc.SResp),
      Garc.hashtagGo gabs (Garc.Resp.s429 :: script) n c =
        ⟨(Garc.hashtagGo gabs script n c).yields,
         (c, Garc.Resp.s429) :: (Garc.hashtagGo gabs script n c).trace,
         100 :: (Garc.hashtagGo gabs script n c).sleeps,
         (Garc.hashtagGo gabs script n c).err⟩ ∧
      Garc.publicGo q gabs ga (Garc.Resp.s429 :: script) n c
        = ⟨[], [(c, Garc.Resp.s429)], [100], false⟩ ∧
      Garc.searchGo gabs (f + 1) page m (Garc.SResp.s429 :: srest) =
        ⟨(Garc.searchGo gabs f (page + 1) m srest).yields,
         (page, Garc.SResp.s429) :: (Garc.searchGo gabs f (page + 1) m srest).trace,
         100 :: (Garc.searchGo gabs f (page + 1) m srest).sleeps⟩ :=
  fun _ _ _ _ _ _ _ _ _ _ => ⟨rfl, rfl, rfl⟩

/-- C1 (counterexample): `userposts` with limit `L = 1` and a single
two-record page (timestamps newer than the default date cutoff). The
per-page limit check `num_gabs > gabs` runs only after the whole page has
been yielded, so the run yields 2 records, exceeding the limit 1 that the
claim says is never exceeded. -/
theorem c1_limit_exceeded_counterexample :
    (Garc.userposts 1 "2000-01-01"
      [[⟨"1", "2024-01-01", "a", none⟩, ⟨"2", "2024-01-02", "b", none⟩]]).yields.length
      = 2 ∧
    ¬ ((Garc.userposts 1 "2000-01-01"
      [[⟨"1", "2024-01-01", "a", none⟩, ⟨"2", "2024-01-02", "b", none⟩]]).yields.length
      ≤ 1) := by
  decide

/-- C8: for every engine, an empty first page — an empty response mapping
or an empty first-key record array for `search`, an empty post list for
the others — yields zero records and terminates normally after that single
fetch, with no error. (For `search` the hypothesis asks that the page loop
runs at all, i.e. `pages_count` is non-zero; with `gabs = 0` Python's
`range(0)` performs no fetch, so no "first page" exists.) -/
theorem c8_empty_first_page_yields_nothing :
    ∀ (g1 g2 g3 g4 g5 : Int) (q ga k : String)
      (r1 : List Garc.SResp) (es : List (String × List Garc.Post))
      (r2 r3 : List Garc.Resp) (r4 r5 r6 : List (List Garc.Post)),
      Garc.searchPages g1 ≠ 0 →
      ((Garc.search g1 (Garc.SResp.ok [] :: r1)).yields = [] ∧
       (Garc.search g1 (Garc.SResp.ok [] :: r1)).trace.length = 1) ∧
      ((Garc.search g1 (Garc.SResp.ok ((k, []) :: es) :: r1)).yields = [] ∧
       (Garc.search g1 (Garc.SResp.ok ((k, []) :: es) :: r1)).trace.length = 1) ∧
      ((Garc.hashtag g2 (Garc.Resp.ok [] :: r2)).yields = [] ∧
       (Garc.hashtag g2 (Garc.Resp.ok [] :: r2)).trace.length = 1 ∧
       (Garc.hashtag g2 (Garc.Resp.ok [] :: r2)).err = false) ∧
      ((Garc.public_search q g3 ga (Garc.Resp.ok [] :: r3)).yields = [] ∧
       (Garc.public_search q g3 ga (Garc.Resp.ok [] :: r3)).trace.length = 1 ∧
       (Garc.public_search q g3 ga (Garc.Resp.ok [] :: r3)).err = false) ∧
      ((Garc.userposts g4 ga ([] :: r4)).yields = [] ∧
       (Garc.userposts g4 ga ([] :: r4)).trace.length = 1) ∧
      ((Garc.usercomments g5 ([] :: r5)).yields = [] ∧
       (Garc.usercomments g5 ([] :: r5)).trace.length = 1) ∧
      ((Garc.followers ([] :: r6)).yields = [] ∧
       (Garc.followers ([] :: r6)).trace.length = 1 ∧
       (Garc.following ([] :: r6)).yields = []) := by
  intro g1 g2 g3 g4 g5 q ga k r1 es r2 r3 r4 r5 r6 h1
  obtain ⟨f, hf⟩ := Nat.exists_eq_succ_of_ne_zero h1
  refine ⟨⟨?_, ?_⟩, ⟨?_, ?_⟩, ⟨rfl, rfl, rfl⟩, ⟨rfl, rfl, rfl⟩,
    ⟨rfl, rfl⟩, ⟨rfl, rfl⟩, ⟨rfl, rfl, rfl⟩⟩ <;>
    simp [Garc.search, hf, Garc.searchGo]

/-- C8 (witness): the empty-first-page theorem applied at `gabs = -1` for
`search` (so `pages_count` is the large constant, in particular non-zero)
and at limit 0 for the other engines, with a one-response script each. -/
theorem c8_empty_first_page_yields_nothing_witness :
    Garc.searchPages (-1) ≠ 0 ∧
    (((Garc.search (-1) [Garc.SResp.ok []]).yields = [] ∧
      (Garc.search (-1) [Garc.SResp.ok []]).trace.length = 1) ∧
     ((Garc.search (-1) [Garc.SResp.ok [("", [])]]).yields = [] ∧
      (Garc.search (-1) [Garc.SResp.ok [("", [])]]).trace.length = 1) ∧
     ((Garc.hashtag 0 [Garc.Resp.ok []]).yields = [] ∧
      (Garc.hashtag 0 [Garc.Resp.ok []]).trace.length = 1 ∧
      (Garc.hashtag 0 [Garc.Resp.ok []]).err = false) ∧
     ((Garc.public_search "" 0 "" [Garc.Resp.ok []]).yields = [] ∧
      (Garc.public_search "" 0 "" [Garc.Resp.ok []]).trace.length = 1 ∧
      (Garc.public_search "" 0 "" [Garc.Resp.ok []]).err = false) ∧
     ((Garc.userposts 0 "" [[]]).yields = [] ∧
      (Garc.userposts 0 "" [[]]).trace.length = 1) ∧
     ((Garc.usercomments 0 [[]]).yields = [] ∧
      (Garc.usercomments 0 [[]]).trace.length = 1) ∧
     ((Garc.followers [[]]).yields = [] ∧
      (Garc.followers [[]]).trace.length = 1 ∧
      (Garc.following [[]]).yields = [])) :=
  ⟨by decide,
   c8_empty_first_page_yields_nothing (-1) 0 0 0 0 "" "" "" [] [] [] [] [] [] []
     (by decide)⟩

/-- The text filter never yields more records than the page holds. -/
theorem publicYield_length_le (q : String) : ∀ ps : List Garc.Post,
    (Garc.publicYield q ps).length ≤ ps.length := by
  intro ps
  induction ps with
  | nil => simp [Garc.publicYield]
  | cons p ps ih =>
    by_cases h : Garc.search_gab_text p q <;>
      simp [Garc.publicYield, h] <;> omega

/-- Loop invariant of `userposts`: entered with `num_gabs = n ≤ gabs`, the
loop yields at most `gabs + P - n` more records when every page has at
most `P` records (the final page is yielded whole before the limit check
fires). -/
theorem userpostsGo_yields_le (g P : Nat) (ga : String) :
    ∀ (script : List (List Garc.Post)) (n : Nat) (c : String),
      (∀ p ∈ script, p.length ≤ P) → n ≤ g →
      (Garc.userpostsGo (g : Int) ga script n c).yields.length + n ≤ g + P := by
  intro script
  induction script with
  | nil =>
    intro n c _ hn
    simp only [Garc.userpostsGo, List.length_nil]
    omega
  | cons page rest ih =>
    intro n c hP hn
    have hpage : page.length ≤ P := hP page (by simp)
    cases page with
    | nil =>
      simp only [Garc.userpostsGo, List.length_nil]
      omega
    | cons p ps =>
      simp only [Garc.userpostsGo]
      by_cases hd : Garc.pyLt (Garc.lastPost p ps).created_at ga = true
      · rw [if_pos hd]
        simp only [List.length_cons] at hpage
        simp only [List.length_map, List.length_cons]
        omega
      · rw [if_neg hd]
        by_cases hgt : g < n + (p :: ps).length
        · rw [if_pos (by constructor <;> omega)]
          simp only [List.length_cons] at hpage
          simp only [List.length_map, List.length_cons]
          omega
        · rw [if_neg (by omega)]
          have hrec := ih (n + (p :: ps).length) (Garc.lastPost p ps).id
            (fun x hx => hP x (List.mem_cons_of_mem _ hx)) (by omega)
          simp only [List.length_cons] at hpage
          simp only [List.length_append, List.length_map, List.length_cons] at hrec ⊢
          omega

/-- Loop invariant of `public_search`: entered with `num_gabs = n ≤ gabs`,
the loop yields at most `gabs + P - n` more records when every scripted
page has at most `P` records. -/
theorem publicGo_yields_le (q : String) (g P : Nat) (ga : String) :
    ∀ (script : List Garc.Resp) (n : Nat) (c : String),
      (∀ r ∈ script, Garc.respPageLength r ≤ P) → n ≤ g →
      (Garc.publicGo q (g : Int) ga script n c).yields.length + n ≤ g + P := by
  intro script
  induction script with
  | nil =>
    intro n c _ hn
    simp only [Garc.publicGo, List.length_nil]
    omega
  | cons r rest ih =>
    intro n c hP hn
    have hfilter : ∀ ps : List Garc.Post,
        (Garc.publicYield q ps).length ≤ ps.length := publicYield_length_le q
    cases r with
    | s500 =>
      simp only [Garc.publicGo, List.length_nil]
      omega
    | s429 =>
      simp only [Garc.publicGo, List.length_nil]
      omega
    | ok posts =>
      have hpage : Garc.respPageLength (Garc.Resp.ok posts) ≤ P := hP _ (by simp)
      simp only [Garc.respPageLength] at hpage
      cases posts with
      | nil =>
        simp only [Garc.publicGo, List.length_nil]
        omega
      | cons p ps =>
        have hy := hfilter (p :: ps)
        simp only [Garc.publicGo]
        by_cases hgt : g < n + (p :: ps).length
        · rw [if_pos (by constructor <;> omega)]
          simp only [List.length_cons] at hpage hy ⊢
          omega
        · rw [if_neg (by omega)]
          rcases hdc : Garc.dateCheck (p :: ps) ga with _ | b
          · simp only [List.length_cons] at hpage hy ⊢
            omega
          · cases b
            · have hrec := ih (n + (p :: ps).length) (Garc.lastPost p ps).id
                (fun x hx => hP x (List.mem_cons_of_mem _ hx)) (by omega)
              simp only [List.length_append, List.length_cons] at hpage hy hrec ⊢
              omega
            · simp only [List.length_cons] at hpage hy ⊢
              omega

/-- C1 (amended): `userposts` and `public_search` check their limit only
at page boundaries (`num_gabs > gabs`, after the whole page has been
yielded), so with limit `L ≥ 0` the yield count is not bounded by `L`
itself but by `L + P` whenever every upstream page holds at most `P`
records: the cumulative count before the final fetched page never exceeds
`L`, and at most one further page is yielded. -/
theorem c1_page_boundary_limit_amended :
    ∀ (L : Int) (P : Nat) (q ga : String)
      (pages : List (List Garc.Post)) (script : List Garc.Resp),
      0 ≤ L →
      (∀ p ∈ pages, p.length ≤ P) →
      (∀ r ∈ script, Garc.respPageLength r ≤ P) →
      (Garc.userposts L ga pages).yields.length ≤ L.toNat + P ∧
      (Garc.public_search q L ga script).yields.length ≤ L.toNat + P := by
  intro L P q ga pages script hL hpg hsc
  obtain ⟨g, rfl⟩ := Int.eq_ofNat_of_zero_le hL
  rw [Int.toNat_natCast]
  constructor
  · have h := userpostsGo_yields_le g P ga pages 0 "" hpg (Nat.zero_le g)
    simp only [Garc.userposts]
    omega
  · have h := publicGo_yields_le q g P ga script 0 "" hsc (Nat.zero_le g)
    simp only [Garc.public_search]
    omega

/-- C1 (amended, witness): the page-boundary bound applied at `L = 2`,
`P = 1`, with a single one-record page for each engine. -/
theorem c1_page_boundary_limit_amended_witness :
    0 ≤ (2 : Int) ∧
    ((Garc.userposts 2 "" [[⟨"1", "2024-01-01", "a", none⟩]]).yields.length
        ≤ (2 : Int).toNat + 1 ∧
     (Garc.public_search "" 2 "" [Garc.Resp.ok [⟨"1", "2024-01-01", "a", none⟩]]).yields.length
        ≤ (2 : Int).toNat + 1) :=
  ⟨by decide,
   c1_page_boundary_limit_amended 2 1 "" ""
     [[⟨"1", "2024-01-01", "a", none⟩]]
     [Garc.Resp.ok [⟨"1", "2024-01-01", "a", none⟩]]
     (by decide) (by decide) (by decide)⟩

/-- If the limit cannot be hit inside this page (`n + |posts| ≤ gabs`),
the hashtag yield loop yields the whole page and does not return. -/
theorem hashtagYield_full (g : Nat) :
    ∀ (posts : List Garc.Post) (n : Nat), n + posts.length ≤ g →
      Garc.hashtagYield (g : Int) n posts = (posts, n + posts.length, false) := by
  intro posts
  induction posts with
  | nil =>
    intro n _
    simp [Garc.hashtagYield]
  | cons p ps ih =>
    intro n h
    simp only [List.length_cons] at h
    simp only [Garc.hashtagYield]
    rw [if_neg (by omega)]
    rw [ih (n + 1) (by omega)]
    simp only [List.length_cons, Prod.mk.injEq]
    refine ⟨trivial, by omega, trivial⟩

/-- If the limit is hit inside this page (`n ≤ gabs < n + |posts|`), the
hashtag yield loop returns after yielding exactly `gabs + 1 - n` records:
the strict check `num_gabs > gabs` fires the moment the count reaches
`gabs + 1`. -/
theorem hashtagYield_stop (g : Nat) :
    ∀ (posts : List Garc.Post) (n : Nat), n ≤ g → g < n + posts.length →
      (Garc.hashtagYield (g : Int) n posts).1.length + n = g + 1 ∧
      (Garc.hashtagYield (g : Int) n posts).2.2 = true := by
  intro posts
  induction posts with
  | nil =>
    intro n h1 h2
    simp only [List.length_nil] at h2
    omega
  | cons p ps ih =>
    intro n h1 h2
    simp only [List.length_cons] at h2
    simp only [Garc.hashtagYield]
    by_cases hc : g < n + 1
    · rw [if_pos (by constructor <;> omega)]
      simp only [List.length_cons, List.length_nil]
      exact ⟨by omega, trivial⟩
    · rw [if_neg (by omega)]
      have hrec := ih (n + 1) (by omega) (by omega)
      simp only [List.length_cons]
      exact ⟨by omega, hrec.2⟩

/-- Loop invariant of `hashtag` on an all-ok script of non-empty pages
holding at least `gabs + 1 - n` records in total: entered with
`num_gabs = n ≤ gabs`, the engine yields exactly `gabs + 1 - n` more
records before the strict limit check returns. -/
theorem hashtagGo_exact (g : Nat) :
    ∀ (pages : List (List Garc.Post)) (n : Nat) (c : String),
      (∀ p ∈ pages, p ≠ []) → n ≤ g →
      g + 1 ≤ n + (pages.map List.length).sum →
      (Garc.hashtagGo (g : Int) (pages.map Garc.Resp.ok) n c).yields.length + n
        = g + 1 := by
  intro pages
  induction pages with
  | nil =>
    intro n c _ hn hsum
    simp only [List.map_nil, List.sum_nil] at hsum
    omega
  | cons page rest ih =>
    intro n c hne hn hsum
    have hne1 : page ≠ [] := hne page (by simp)
    cases page with
    | nil => exact absurd rfl hne1
    | cons p ps =>
      simp only [List.map_cons, List.sum_cons, List.length_cons] at hsum
      simp only [List.map_cons, Garc.hashtagGo]
      by_cases hstop : g < n + (p :: ps).length
      · have hy := hashtagYield_stop g (p :: ps) n hn hstop
        rw [if_pos hy.2]
        exact hy.1
      · simp only [List.length_cons] at hstop
        have hfull := hashtagYield_full g (p :: ps) n
          (by simp only [List.length_cons]; omega)
        rw [hfull]
        rw [if_neg Bool.false_ne_true]
        simp only [List.length_cons]
        have hrec := ih (n + (ps.length + 1)) (Garc.lastPost p ps).id
          (fun x hx => hne x (List.mem_cons_of_mem _ hx)) (by omega) (by omega)
        simp only [List.length_append, List.length_cons] at hrec ⊢
        omega

/-- C4: the hashtag engine's limit check is `num_gabs > gabs`, evaluated
after the counter was incremented and the record yielded, so with limit
`L ≥ 0` (and `L ≠ -1`) and an all-ok upstream of non-empty pages carrying
at least `L + 1` records, the run yields exactly `L + 1` records before
stopping — the documented off-by-one. -/
theorem c4_hashtag_yields_limit_plus_one :
    ∀ (L : Int) (pages : List (List Garc.Post)),
      0 ≤ L →
      (∀ p ∈ pages, p ≠ []) →
      L.toNat + 1 ≤ (pages.map List.length).sum →
      (Garc.hashtag L (pages.map Garc.Resp.ok)).yields.length = L.toNat + 1 := by
  intro L pages hL hne hsum
  obtain ⟨g, rfl⟩ := Int.eq_ofNat_of_zero_le hL
  rw [Int.toNat_natCast] at hsum ⊢
  have h := hashtagGo_exact g pages 0 "" hne (Nat.zero_le g) (by omega)
  simp only [Garc.hashtag]
  omega

/-- C4 (witness): limit 1, three records across two non-empty pages: the
run yields exactly 2 records. -/
theorem c4_hashtag_yields_limit_plus_one_witness :
    0 ≤ (1 : Int) ∧
    (Garc.hashtag 1
      ([[⟨"1", "2024-01-01", "a", none⟩],
        [⟨"2", "2024-01-02", "b", none⟩,
         ⟨"3", "2024-01-03", "c", none⟩]].map Garc.Resp.ok)).yields.length
      = (1 : Int).toNat + 1 :=
  ⟨by decide,
   c4_hashtag_yields_limit_plus_one 1
     [[⟨"1", "2024-01-01", "a", none⟩],
      [⟨"2", "2024-01-02", "b", none⟩, ⟨"3", "2024-01-03", "c", none⟩]]
     (by decide) (by decide) (by decide)⟩

/-- C5: the staged date-cutoff check of `public_search` signals a stop
(`some true`, the nested `break`) on a page of at least 3 records exactly
when the creation timestamps of the first, second and third record and of
the last record are all older than `gabs_after`; and on the concrete page
with `created_at` values 2024-06-01, 2024-06-02, 2024-01-01, 2024-01-02
and `gabs_after = 2024-05-01` the engine does not stop: it goes on to
fetch the next scripted page (trace length 2). -/
theorem c5_staged_date_cutoff_iff :
    ∀ (posts : List Garc.Post) (ga : String), 3 ≤ posts.length →
      ((Garc.dateCheck posts ga = some true ↔
        (Garc.pyLt (posts.getD 0 Garc.dummyPost).created_at ga = true ∧
         Garc.pyLt (posts.getD 1 Garc.dummyPost).created_at ga = true ∧
         Garc.pyLt (posts.getD 2 Garc.dummyPost).created_at ga = true ∧
         Garc.pyLt (posts.getLastD Garc.dummyPost).created_at ga = true)) ∧
       (Garc.public_search "zz" (-1) "2024-05-01"
          [Garc.Resp.ok
             [⟨"1", "2024-06-01", "", none⟩, ⟨"2", "2024-06-02", "", none⟩,
              ⟨"3", "2024-01-01", "", none⟩, ⟨"4", "2024-01-02", "", none⟩],
           Garc.Resp.ok [⟨"5", "2024-07-01", "", none⟩]]).trace.length = 2) := by
  intro posts ga h3
  refine ⟨?_, by decide⟩
  rcases posts with _ | ⟨a, _ | ⟨b, _ | ⟨c, rest⟩⟩⟩
  · simp at h3
  · simp at h3
  · simp at h3
  · simp only [Garc.dateCheck, List.get?, getLast?_cons_eq, List.getLastD_cons,
      List.getD_cons_zero, List.getD_cons_succ]
    by_cases h0 : Garc.pyLt a.created_at ga = true <;>
      by_cases h1 : Garc.pyLt b.created_at ga = true <;>
        by_cases h2 : Garc.pyLt c.created_at ga = true <;>
          by_cases h4 : Garc.pyLt (rest.getLastD c).created_at ga = true <;>
            simp [h0, h1, h2, h4]

/-- C5 (witness): the staged-cutoff characterization applied to the
spec's concrete page — the first two timestamps are newer than the
cutoff, so the stop condition is false there. -/
theorem c5_staged_date_cutoff_iff_witness :
    3 ≤ ([⟨"1", "2024-06-01", "", none⟩, ⟨"2", "2024-06-02", "", none⟩,
          ⟨"3", "2024-01-01", "", none⟩,
          ⟨"4", "2024-01-02", "", none⟩] : List Garc.Post).length ∧
    ((Garc.dateCheck
        [⟨"1", "2024-06-01", "", none⟩, ⟨"2", "2024-06-02", "", none⟩,
         ⟨"3", "2024-01-01", "", none⟩, ⟨"4", "2024-01-02", "", none⟩]
        "2024-05-01" = some true ↔
      (Garc.pyLt
          (([⟨"1", "2024-06-01", "", none⟩, ⟨"2", "2024-06-02", "", none⟩,
             ⟨"3", "2024-01-01", "", none⟩,
             ⟨"4", "2024-01-02", "", none⟩] : List Garc.Post).getD 0
            Garc.dummyPost).created_at "2024-05-01" = true ∧
       Garc.pyLt
          (([⟨"1", "2024-06-01", "", none⟩, ⟨"2", "2024-06-02", "", none⟩,
             ⟨"3", "2024-01-01", "", none⟩,
             ⟨"4", "2024-01-02", "", none⟩] : List Garc.Post).getD 1
            Garc.dummyPost).created_at "2024-05-01" = true ∧
       Garc.pyLt
          (([⟨"1", "2024-06-01", "", none⟩, ⟨"2", "2024-06-02", "", none⟩,
             ⟨"3", "2024-01-01", "", none⟩,
             ⟨"4", "2024-01-02", "", none⟩] : List Garc.Post).getD 2
            Garc.dummyPost).created_at "2024-05-01" = true ∧
       Garc.pyLt
          (([⟨"1", "2024-06-01", "", none⟩, ⟨"2", "2024-06-02", "", none⟩,
             ⟨"3", "2024-01-01", "", none⟩,
             ⟨"4", "2024-01-02", "", none⟩] : List Garc.Post).getLastD
            Garc.dummyPost).created_at "2024-05-01" = true)) ∧
     (Garc.public_search "zz" (-1) "2024-05-01"
        [Garc.Resp.ok
           [⟨"1", "2024-06-01", "", none⟩, ⟨"2", "2024-06-02", "", none⟩,
            ⟨"3", "2024-01-01", "", none⟩, ⟨"4", "2024-01-02", "", none⟩],
         Garc.Resp.ok [⟨"5", "2024-07-01", "", none⟩]]).trace.length = 2) :=
  ⟨by decide,
   c5_staged_date_cutoff_iff
     [⟨"1", "2024-06-01", "", none⟩, ⟨"2", "2024-06-02", "", none⟩,
      ⟨"3", "2024-01-01", "", none⟩, ⟨"4", "2024-01-02", "", none⟩]
     "2024-05-01" (by decide)⟩

/-- The page cursors of a `search` run are consecutive integers from the
starting page index, whatever the responses are. -/
theorem searchGo_trace_cursors (g : Int) :
    ∀ (f page n : Nat) (script : List Garc.SResp),
      (Garc.searchGo g f page n script).trace.map Prod.fst
        = List.range' page (Garc.searchGo g f page n script).trace.length := by
  intro f
  induction f with
  | zero => intro page n script; simp [Garc.searchGo]
  | succ f ih =>
    intro page n script
    cases script with
    | nil => simp [Garc.searchGo]
    | cons r rest =>
      cases r with
      | s500 => simp [Garc.searchGo, List.range']
      | s429 =>
        simp only [Garc.searchGo, List.map_cons, List.length_cons, List.range']
        rw [ih (page + 1) n rest]
      | ok entries =>
        match entries with
        | [] => simp [Garc.searchGo, List.range']
        | (k, []) :: es => simp [Garc.searchGo, List.range']
        | (k, p :: ps) :: es =>
          simp only [Garc.searchGo]
          by_cases hs : (Garc.searchYield g n (p :: ps)).2.2 = true
          · rw [if_pos hs]
            simp [List.range']
          · rw [if_neg hs]
            simp only [List.map_cons, List.length_cons, List.range']
            rw [ih (page + 1) (Garc.searchYield g n (p :: ps)).2.1 rest]

/-- A `search` run performs at most `fuel` fetches — the page loop is
`for page in range(pages_count)`. -/
theorem searchGo_trace_len (g : Int) :
    ∀ (f page n : Nat) (script : List Garc.SResp),
      (Garc.searchGo g f page n script).trace.length ≤ f := by
  intro f
  induction f with
  | zero => intro page n script; simp [Garc.searchGo]
  | succ f ih =>
    intro page n script
    cases script with
    | nil => simp [Garc.searchGo]
    | cons r rest =>
      cases r with
      | s500 => simp [Garc.searchGo]
      | s429 =>
        simp only [Garc.searchGo, List.length_cons]
        exact Nat.succ_le_succ (ih (page + 1) n rest)
      | ok entries =>
        match entries with
        | [] => simp [Garc.searchGo]
        | (k, []) :: es => simp [Garc.searchGo]
        | (k, p :: ps) :: es =>
          simp only [Garc.searchGo]
          by_cases hs : (Garc.searchYield g n (p :: ps)).2.2 = true
          · rw [if_pos hs]; simp
          · rw [if_neg hs]
            simp only [List.length_cons]
            exact Nat.succ_le_succ (ih (page + 1) _ rest)

/-- If the limit cannot be hit inside this page (`n + |posts| < gabs`),
the search yield loop yields the whole page and does not return. -/
theorem searchYield_full (g : Nat) :
    ∀ (posts : List Garc.Post) (n : Nat), n + posts.length < g →
      Garc.searchYield (g : Int) n posts = (posts, n + posts.length, false) := by
  intro posts
  induction posts with
  | nil =>
    intro n _
    simp [Garc.searchYield]
  | cons p ps ih =>
    intro n h
    simp only [List.length_cons] at h
    simp only [Garc.searchYield]
    rw [if_neg (by omega)]
    rw [ih (n + 1) (by omega)]
    simp only [List.length_cons, Prod.mk.injEq]
    refine ⟨trivial, by omega, trivial⟩

/-- If the limit is hit inside this page (`n < gabs ≤ n + |posts|`), the
search yield loop returns exactly at the `gabs`-th yielded record,
mid-page: it yields `gabs - n` records of this page. -/
theorem searchYield_stop (g : Nat) :
    ∀ (posts : List Garc.Post) (n : Nat), n < g → g ≤ n + posts.length →
      (Garc.searchYield (g : Int) n posts).1.length + n = g ∧
      (Garc.searchYield (g : Int) n posts).2.2 = true := by
  intro posts
  induction posts with
  | nil =>
    intro n h1 h2
    simp only [List.length_nil] at h2
    omega
  | cons p ps ih =>
    intro n h1 h2
    simp only [List.length_cons] at h2
    simp only [Garc.searchYield]
    by_cases hc : n + 1 = g
    · rw [if_pos (by omega)]
      simp only [List.length_cons, List.length_nil]
      exact ⟨by omega, trivial⟩
    · rw [if_neg (by omega)]
      have hrec := ih (n + 1) (by omega) (by omega)
      simp only [List.length_cons]
      exact ⟨by omega, hrec.2⟩

/-- Loop invariant of `search`: entered with `num_gabs = n < gabs`, the
page loop yields at most `gabs - n` more records (the `num_gabs == gabs`
check returns exactly at the limit). -/
theorem searchGo_yields_le (g : Nat) :
    ∀ (f page n : Nat) (script : List Garc.SResp), n < g →
      (Garc.searchGo (g : Int) f page n script).yields.length + n ≤ g := by
  intro f
  induction f with
  | zero => intro page n script hn; simp [Garc.searchGo]; omega
  | succ f ih =>
    intro page n script hn
    cases script with
    | nil => simp [Garc.searchGo]; omega
    | cons r rest =>
      cases r with
      | s500 => simp [Garc.searchGo]; omega
      | s429 =>
        simp only [Garc.searchGo]
        exact ih (page + 1) n rest hn
      | ok entries =>
        match entries with
        | [] => simp [Garc.searchGo]; omega
        | (k, []) :: es => simp [Garc.searchGo]; omega
        | (k, p :: ps) :: es =>
          simp only [Garc.searchGo]
          by_cases hle : g ≤ n + (p :: ps).length
          · have hy := searchYield_stop g (p :: ps) n hn hle
            rw [if_pos hy.2]
            show (Garc.searchYield (g : Int) n (p :: ps)).1.length + n ≤ g
            omega
          · have hfull := searchYield_full g (p :: ps) n (by omega)
            rw [hfull]
            rw [if_neg Bool.false_ne_true]
            have hrec := ih (page + 1) (n + (p :: ps).length) rest (by omega)
            simp only [List.length_append, List.length_cons] at hrec ⊢
            omega

/-- `pages_count` equals the ceiling `⌈gabs / 25⌉` for `gabs ≥ 0`. -/
theorem searchPages_eq_ceil (g : Nat) :
    Garc.searchPages (g : Int) = (g + 24) / 25 := by
  have hne : ((g : Int)) ≠ -1 := by omega
  simp only [Garc.searchPages, if_neg hne]
  have h1 : Int.tdiv (g : Int) 25 = ((g / 25 : Nat) : Int) := rfl
  have h2 : Int.emod (g : Int) 25 = ((g % 25 : Nat) : Int) := rfl
  rw [h1, h2]
  by_cases hm : 0 < g % 25
  · rw [if_pos (by omega)]
    omega
  · rw [if_neg (by omega)]
    omega

/-- C6: the offset-page `search` engine. Its page cursor starts at 0 and
increments by 1 on every loop iteration regardless of the response (the
trace's cursors are `0, 1, 2, ...`); it performs at most
`pages_count = ⌈L / 25⌉` fetches; it yields at most `L` records; and the
inner yield loop stops exactly at the `L`-th yielded record, mid-page
(last conjunct: from any count `n < L` it yields exactly `L - n` records
of a page that reaches the limit, and takes the `return`). -/
theorem c6_search_offset_engine :
    ∀ (L : Int) (script : List Garc.SResp), 0 ≤ L → L ≠ -1 →
      ((Garc.search L script).trace.map Prod.fst
          = List.range (Garc.search L script).trace.length) ∧
      (Garc.search L script).trace.length ≤ Garc.searchPages L ∧
      Garc.searchPages L = (L.toNat + 24) / 25 ∧
      (Garc.search L script).yields.length ≤ L.toNat ∧
      (∀ (n : Nat) (posts : List Garc.Post),
        n < L.toNat → L.toNat ≤ n + posts.length →
        (Garc.searchYield L n posts).1.length + n = L.toNat ∧
        (Garc.searchYield L n posts).2.2 = true) := by
  intro L script hL _
  obtain ⟨g, rfl⟩ := Int.eq_ofNat_of_zero_le hL
  rw [Int.toNat_natCast]
  refine ⟨?_, ?_, searchPages_eq_ceil g, ?_, ?_⟩
  · rw [List.range_eq_range']
    exact searchGo_trace_cursors (g : Int) (Garc.searchPages (g : Int)) 0 0 script
  · exact searchGo_trace_len (g : Int) (Garc.searchPages (g : Int)) 0 0 script
  · rcases Nat.eq_zero_or_pos g with hg | hg
    · subst hg
      have h0 : Garc.searchPages ((0 : Nat) : Int) = 0 := by
        rw [searchPages_eq_ceil]
      simp only [Garc.search, h0, Garc.searchGo]
      simp
    · have h := searchGo_yields_le g (Garc.searchPages (g : Int)) 0 0 script hg
      simp only [Garc.search]
      omega
  · intro n posts hn hle
    exact searchYield_stop g posts n hn hle

/-- C6 (witness): limit 3, one page of five records: cursors are `[0]`,
one fetch happened (bound `⌈3/25⌉ = 1`), and exactly 3 records were
yielded, the loop returning mid-page. -/
theorem c6_search_offset_engine_witness :
    0 ≤ (3 : Int) ∧
    (((Garc.search 3
        [Garc.SResp.ok [("statuses",
          [⟨"1", "2024-01-01", "a", none⟩, ⟨"2", "2024-01-02", "b", none⟩,
           ⟨"3", "2024-01-03", "c", none⟩, ⟨"4", "2024-01-04", "d", none⟩,
           ⟨"5", "2024-01-05", "e", none⟩])]]).trace.map Prod.fst
        = List.range (Garc.search 3
        [Garc.SResp.ok [("statuses",
          [⟨"1", "2024-01-01", "a", none⟩, ⟨"2", "2024-01-02", "b", none⟩,
           ⟨"3", "2024-01-03", "c", none⟩, ⟨"4", "2024-01-04", "d", none⟩,
           ⟨"5", "2024-01-05", "e", none⟩])]]).trace.length) ∧
     (Garc.search 3
        [Garc.SResp.ok [("statuses",
          [⟨"1", "2024-01-01", "a", none⟩, ⟨"2", "2024-01-02", "b", none⟩,
           ⟨"3", "2024-01-03", "c", none⟩, ⟨"4", "2024-01-04", "d", none⟩,
           ⟨"5", "2024-01-05", "e", none⟩])]]).trace.length
        ≤ Garc.searchPages 3 ∧
     Garc.searchPages 3 = ((3 : Int).toNat + 24) / 25 ∧
     (Garc.search 3
        [Garc.SResp.ok [("statuses",
          [⟨"1", "2024-01-01", "a", none⟩, ⟨"2", "2024-01-02", "b", none⟩,
           ⟨"3", "2024-01-03", "c", none⟩, ⟨"4", "2024-01-04", "d", none⟩,
           ⟨"5", "2024-01-05", "e", none⟩])]]).yields.length ≤ (3 : Int).toNat ∧
     (∀ (n : Nat) (posts : List Garc.Post),
        n < (3 : Int).toNat → (3 : Int).toNat ≤ n + posts.length →
        (Garc.searchYield 3 n posts).1.length + n = (3 : Int).toNat ∧
        (Garc.searchYield 3 n posts).2.2 = true)) :=
  ⟨by decide,
   c6_search_offset_engine 3
     [Garc.SResp.ok [("statuses",
        [⟨"1", "2024-01-01", "a", none⟩, ⟨"2", "2024-01-02", "b", none⟩,
         ⟨"3", "2024-01-03", "c", none⟩, ⟨"4", "2024-01-04", "d", none⟩,
         ⟨"5", "2024-01-05", "e", none⟩])]]
     (by decide) (by decide)⟩

/-- The first successfully processed non-empty page of a `hashtag` run
was fetched with the cursor the run started from (429 retries preserve
it; 500s, empty pages and the limit `return` end the trace). -/
theorem hashtagGo_okPages_head (g : Int) :
    ∀ (script : List Garc.Resp) (n : Nat) (c : String)
      (x : String × List Garc.Post),
      (Garc.okPages (Garc.hashtagGo g script n c).trace).head? = some x →
      x.1 = c := by
  intro script
  induction script with
  | nil =>
    intro n c x h
    simp [Garc.hashtagGo, Garc.okPages] at h
  | cons r rest ih =>
    intro n c x h
    cases r with
    | s500 => simp [Garc.hashtagGo, Garc.okPages] at h
    | s429 =>
      simp only [Garc.hashtagGo, Garc.okPages, List.filterMap_cons] at h
      exact ih n c x h
    | ok posts =>
      cases posts with
      | nil => simp [Garc.hashtagGo, Garc.okPages] at h
      | cons p ps =>
        simp only [Garc.hashtagGo] at h
        by_cases hs : (Garc.hashtagYield g n (p :: ps)).2.2 = true
        · rw [if_pos hs] at h
          simp [Garc.okPages] at h
          subst h
          rfl
        · rw [if_neg hs] at h
          simp [Garc.okPages] at h
          subst h
          rfl

/-- Cursor monotonicity for `hashtag`: consecutive successfully processed
non-empty pages are linked by `pageStep` — each was fetched with the id of
the previous one's last record (`max_id = posts[-1]["id"]`). -/
theorem hashtagGo_chain (g : Int) :
    ∀ (script : List Garc.Resp) (n : Nat) (c : String),
      List.Chain' Garc.pageStep (Garc.okPages (Garc.hashtagGo g script n c).trace) := by
  intro script
  induction script with
  | nil =>
    intro n c
    simp [Garc.hashtagGo, Garc.okPages]
  | cons r rest ih =>
    intro n c
    cases r with
    | s500 => simp [Garc.hashtagGo, Garc.okPages]
    | s429 =>
      simp only [Garc.hashtagGo, Garc.okPages, List.filterMap_cons]
      exact ih n c
    | ok posts =>
      cases posts with
      | nil => simp [Garc.hashtagGo, Garc.okPages]
      | cons p ps =>
        simp only [Garc.hashtagGo]
        by_cases hs : (Garc.hashtagYield g n (p :: ps)).2.2 = true
        · rw [if_pos hs]
          simp only [Garc.okPages, List.filterMap_cons]
          simp
        · rw [if_neg hs]
          simp only [Garc.okPages, List.filterMap_cons]
          rw [List.chain'_cons']
          constructor
          · intro y hy
            have hc := hashtagGo_okPages_head g rest
              (Garc.hashtagYield g n (p :: ps)).2.1 (Garc.lastPost p ps).id y
              (by simpa [Garc.okPages] using hy)
            simp only [Garc.pageStep, List.getLastD_cons, Garc.lastPost] at hc ⊢
            exact hc
          · exact ih _ _

/-- The first successfully processed non-empty page of a `public_search`
run was fetched with the cursor the run started from (any 429, 500, empty
page, limit break, date break or IndexError ends the trace at once). -/
theorem publicGo_okPages_head (q : String) (g : Int) (ga : String) :
    ∀ (script : List Garc.Resp) (n : Nat) (c : String)
      (x : String × List Garc.Post),
      (Garc.okPages (Garc.publicGo q g ga script n c).trace).head? = some x →
      x.1 = c := by
  intro script
  induction script with
  | nil =>
    intro n c x h
    simp [Garc.publicGo, Garc.okPages] at h
  | cons r rest ih =>
    intro n c x h
    cases r with
    | s500 => simp [Garc.publicGo, Garc.okPages] at h
    | s429 => simp [Garc.publicGo, Garc.okPages] at h
    | ok posts =>
      cases posts with
      | nil => simp [Garc.publicGo, Garc.okPages] at h
      | cons p ps =>
        simp only [Garc.publicGo] at h
        by_cases hgt : ((n + (p :: ps).length : Nat) : Int) > g ∧ g ≠ -1
        · rw [if_pos hgt] at h
          simp [Garc.okPages] at h
          subst h
          rfl
        · rw [if_neg hgt] at h
          rcases hdc : Garc.dateCheck (p :: ps) ga with _ | b
          · rw [hdc] at h
            simp [Garc.okPages] at h
            subst h
            rfl
          · cases b <;> rw [hdc] at h
            · simp only [Garc.okPages, List.filterMap_cons] at h
              simp at h
              subst h
              rfl
            · simp [Garc.okPages] at h
              subst h
              rfl

/-- Cursor monotonicity for `public_search`: consecutive successfully
processed non-empty pages are linked by `pageStep` — `max_id` is advanced
to each record's id in turn, ending at the page's last record. -/
theorem publicGo_chain (q : String) (g : Int) (ga : String) :
    ∀ (script : List Garc.Resp) (n : Nat) (c : String),
      List.Chain' Garc.pageStep
        (Garc.okPages (Garc.publicGo q g ga script n c).trace) := by
  intro script
  induction script with
  | nil =>
    intro n c
    simp [Garc.publicGo, Garc.okPages]
  | cons r rest ih =>
    intro n c
    cases r with
    | s500 => simp [Garc.publicGo, Garc.okPages]
    | s429 => simp [Garc.publicGo, Garc.okPages]
    | ok posts =>
      cases posts with
      | nil => simp [Garc.publicGo, Garc.okPages]
      | cons p ps =>
        simp only [Garc.publicGo]
        by_cases hgt : ((n + (p :: ps).length : Nat) : Int) > g ∧ g ≠ -1
        · rw [if_pos hgt]
          simp [Garc.okPages]
        · rw [if_neg hgt]
          rcases hdc : Garc.dateCheck (p :: ps) ga with _ | b
          · simp [Garc.okPages]
          · cases b
            · simp only [Garc.okPages, List.filterMap_cons]
              rw [List.chain'_cons']
              constructor
              · intro y hy
                have hc := publicGo_okPages_head q g ga rest
                  (n + (p :: ps).length) (Garc.lastPost p ps).id y
                  (by simpa [Garc.okPages] using hy)
                simp only [Garc.pageStep, List.getLastD_cons, Garc.lastPost] at hc ⊢
                exact hc
              · exact ih _ _
            · simp [Garc.okPages]

/-- The first non-empty page of a `userposts` run was fetched with the
cursor the run started from. -/
theorem userpostsGo_uOkPages_head (g : Int) (ga : String) :
    ∀ (script : List (List Garc.Post)) (n : Nat) (c : String)
      (x : String × List Garc.Post),
      (Garc.uOkPages (Garc.userpostsGo g ga script n c).trace).head? = some x →
      x.1 = c := by
  intro script
  induction script with
  | nil =>
    intro n c x h
    simp [Garc.userpostsGo, Garc.uOkPages] at h
  | cons page rest ih =>
    intro n c x h
    cases page with
    | nil => simp [Garc.userpostsGo, Garc.uOkPages] at h
    | cons p ps =>
      simp only [Garc.userpostsGo] at h
      by_cases hd : Garc.pyLt (Garc.lastPost p ps).created_at ga = true
      · rw [if_pos hd] at h
        simp [Garc.uOkPages] at h
        subst h
        rfl
      · rw [if_neg hd] at h
        by_cases hgt : ((n + (p :: ps).length : Nat) : Int) > g ∧ g ≠ -1
        · rw [if_pos hgt] at h
          simp [Garc.uOkPages] at h
          subst h
          rfl
        · rw [if_neg hgt] at h
          simp only [Garc.uOkPages, List.filter_cons] at h
          simp at h
          subst h
          rfl

/-- Cursor monotonicity for `userposts`: consecutive non-empty pages are
linked by `pageStep` — `max_id` is advanced to each record's id in turn,
ending at the page's last record. -/
theorem userpostsGo_chain (g : Int) (ga : String) :
    ∀ (script : List (List Garc.Post)) (n : Nat) (c : String),
      List.Chain' Garc.pageStep
        (Garc.uOkPages (Garc.userpostsGo g ga script n c).trace) := by
  intro script
  induction script with
  | nil =>
    intro n c
    simp [Garc.userpostsGo, Garc.uOkPages]
  | cons page rest ih =>
    intro n c
    cases page with
    | nil => simp [Garc.userpostsGo, Garc.uOkPages]
    | cons p ps =>
      simp only [Garc.userpostsGo]
      by_cases hd : Garc.pyLt (Garc.lastPost p ps).created_at ga = true
      · rw [if_pos hd]
        simp [Garc.uOkPages]
      · rw [if_neg hd]
        by_cases hgt : ((n + (p :: ps).length : Nat) : Int) > g ∧ g ≠ -1
        · rw [if_pos hgt]
          simp [Garc.uOkPages]
        · rw [if_neg hgt]
          simp only [Garc.uOkPages, List.filter_cons]
          simp only [List.isEmpty_cons, Bool.not_false, if_pos]
          rw [List.chain'_cons']
          constructor
          · intro y hy
            have hc := userpostsGo_uOkPages_head g ga rest
              (n + (p :: ps).length) (Garc.lastPost p ps).id y
              (by simpa [Garc.uOkPages] using hy)
            simp only [Garc.pageStep, List.getLastD_cons, Garc.lastPost] at hc ⊢
            exact hc
          · exact ih _ _

/-- C7: cursor monotonicity of the `max_id`-style engines. In every run of
`hashtag`, `public_search` and `userposts`, the successfully processed
non-empty pages of the fetch trace, taken in order, satisfy: the `max_id`
cursor used in the fetch that returned page N+1 equals the id of the last
record of page N (`List.Chain'` over consecutive elements; intermediate
429 re-polls of `hashtag` preserve the cursor, and every other
intermediate outcome terminates the run, so consecutive elements of
`okPages` are exactly consecutive processed non-empty pages). -/
theorem c7_max_id_cursor_monotonicity :
    ∀ (g : Int) (q ga : String) (script : List Garc.Resp)
      (pages : List (List Garc.Post)),
      List.Chain' Garc.pageStep
        (Garc.okPages (Garc.hashtag g script).trace) ∧
      List.Chain' Garc.pageStep
        (Garc.okPages (Garc.public_search q g ga script).trace) ∧
      List.Chain' Garc.pageStep
        (Garc.uOkPages (Garc.userposts g ga pages).trace) :=
  fun g q ga script pages =>
    ⟨hashtagGo_chain g script 0 "",
     publicGo_chain q g ga script 0 "",
     userpostsGo_chain g ga pages 0 ""⟩
